import Mathlib

/-!
Verification of the client-side game-state engine of the Chronicles of
Aethermoor dungeon client (src/src/pages/Index.tsx, class GameEngine).

The data model and every operation below are shallow embeddings of the
TypeScript source: numbers become Int, arrays become List, optional
record fields become Option, and each mutating method becomes a pure
function from the old GameState to the new GameState paired with the
value the method returns.  JavaScript truthiness of the optional numeric
field item.effect?.health (undefined and 0 are both falsy) is modelled
by optTruthy.
-/

/-- Item.type in the source: one of weapon, armor, potion, key, treasure. -/
inductive ItemType where
  | weapon
  | armor
  | potion
  | key
  | treasure
deriving DecidableEq

/-- Optional effect record of an Item: partial numeric modifiers. -/
structure ItemEffect where
  health : Option Int := none
  damage : Option Int := none
  defense : Option Int := none
deriving DecidableEq

/-- Item interface from the source. -/
structure Item where
  id : String
  name : String
  type : ItemType
  value : Int
  description : String
  effect : Option ItemEffect := none
deriving DecidableEq

/-- Quest interface from the source. -/
structure Quest where
  id : String
  title : String
  description : String
  region : String
  completed : Bool
  crystal : Option String := none
deriving DecidableEq

/-- The storyPhase union type: awakening, exploration or finale. -/
inductive StoryPhase where
  | awakening
  | exploration
  | finale
deriving DecidableEq

/-- GameState interface from the source. -/
structure GameState where
  health : Int
  maxHealth : Int
  inventory : List Item
  gold : Int
  currentLocation : String
  experience : Int
  level : Int
  currentAct : Int
  currentRegion : String
  activeQuests : List Quest
  completedQuests : List String
  crystalsRestored : List String
  storyPhase : StoryPhase
deriving DecidableEq

/-- INITIAL_STATE constant from the source: starter sword, health potion,
50 gold, level 1, act 1, the single active quest The Awakening. -/
def INITIAL_STATE : GameState where
  health := 100
  maxHealth := 100
  inventory := [
    { id := "starter-sword"
      name := "Rusty Sword"
      type := ItemType.weapon
      value := 10
      description := "A worn but reliable blade"
      effect := some { damage := some 15 } },
    { id := "health-potion"
      name := "Health Potion"
      type := ItemType.potion
      value := 25
      description := "Restores 30 HP"
      effect := some { health := some 30 } }]
  gold := 50
  currentLocation := "Eldergrove Village"
  experience := 0
  level := 1
  currentAct := 1
  currentRegion := "Eldergrove"
  activeQuests := [
    { id := "awakening"
      title := "The Awakening"
      description := "Meet the Elder and learn about the corrupted crystals"
      region := "Eldergrove"
      completed := false }]
  completedQuests := []
  crystalsRestored := []
  storyPhase := StoryPhase.awakening

/-- JavaScript truthiness of an optional number: undefined and 0 are falsy,
every other number is truthy. -/
def optTruthy : Option Int → Bool
  | some v => v != 0
  | none => false

/-- The health field of an item's optional effect record,
i.e. item.effect?.health. -/
def Item.healthEffect (i : Item) : Option Int :=
  i.effect.bind ItemEffect.health

/-- takeDamage(amount): health = max(0, health - amount); returns the new
health and whether it reached 0. -/
def takeDamage (amount : Int) (s : GameState) : GameState × (Int × Bool) :=
  let newHealth := max 0 (s.health - amount)
  ({ s with health := newHealth }, (newHealth, decide (newHealth = 0)))

/-- heal(amount): health = min(maxHealth, health + amount); returns the
difference between the new and the old health. -/
def heal (amount : Int) (s : GameState) : GameState × Int :=
  let oldHealth := s.health
  let newHealth := min s.maxHealth (s.health + amount)
  ({ s with health := newHealth }, newHealth - oldHealth)

/-- addItem(item): pushes the item onto the inventory. -/
def addItem (item : Item) (s : GameState) : GameState :=
  { s with inventory := s.inventory ++ [item] }

/-- removeItem(itemId): findIndex of the first item with the given id and
splice it out, returning it; null (here: none) if absent.  Removing the
first item matching the predicate is List.eraseP. -/
def removeItem (itemId : String) (s : GameState) : GameState × Option Item :=
  match s.inventory.find? (fun i => i.id == itemId) with
  | none => (s, none)
  | some item =>
    ({ s with inventory := s.inventory.eraseP (fun i => i.id == itemId) }, some item)

/-- Result record of useItem: success flag, message, and the
healthRestored field of the effect object on success. -/
structure UseItemResult where
  success : Bool
  message : String
  effect : Option Int := none
deriving DecidableEq

/-- useItem(itemId): find the item; if absent, failure Item not found; if
its type is potion and item.effect?.health is truthy, heal by that
amount, remove the item and report success with the healed amount;
otherwise failure Cannot use this item now. -/
def useItem (itemId : String) (s : GameState) : GameState × UseItemResult :=
  match s.inventory.find? (fun i => i.id == itemId) with
  | none => (s, { success := false, message := "Item not found" })
  | some item =>
    if item.type = ItemType.potion ∧ optTruthy item.healthEffect then
      let healRes := heal (item.healthEffect.getD 0) s
      let s2 := (removeItem itemId healRes.1).1
      (s2, { success := true
             message := "Used " ++ item.name ++ ". Restored " ++ toString healRes.2 ++ " HP!"
             effect := some healRes.2 })
    else
      (s, { success := false, message := "Cannot use this item now" })

/-- addGold(amount): gold += amount, unconditionally. -/
def addGold (amount : Int) (s : GameState) : GameState :=
  { s with gold := s.gold + amount }

/-- spendGold(amount): if gold >= amount, subtract and return true,
otherwise return false without changing anything. -/
def spendGold (amount : Int) (s : GameState) : GameState × Bool :=
  if s.gold ≥ amount then ({ s with gold := s.gold - amount }, true)
  else (s, false)

/-- Return value of gainExperience. -/
structure LevelUpResult where
  leveledUp : Bool
  newLevel : Option Int := none
deriving DecidableEq

/-- gainExperience(amount): experience += amount; expNeeded = level * 100;
a single threshold check: if experience >= expNeeded then level += 1,
experience -= expNeeded, maxHealth += 20, health = maxHealth. -/
def gainExperience (amount : Int) (s : GameState) : GameState × LevelUpResult :=
  let experience := s.experience + amount
  let expNeeded := s.level * 100
  if experience ≥ expNeeded then
    ({ s with experience := experience - expNeeded
              level := s.level + 1
              maxHealth := s.maxHealth + 20
              health := s.maxHealth + 20 },
     { leveledUp := true, newLevel := some (s.level + 1) })
  else
    ({ s with experience := experience }, { leveledUp := false })

/-- completeQuest(questId): if an active quest has this id, set its
completed flag, append the id to completedQuests and filter it out of
activeQuests; otherwise do nothing. -/
def completeQuest (questId : String) (s : GameState) : GameState :=
  match s.activeQuests.find? (fun q => q.id == questId) with
  | none => s
  | some _ =>
    let marked := s.activeQuests.map
      (fun q => if q.id = questId then { q with completed := true } else q)
    { s with
      completedQuests := s.completedQuests ++ [questId]
      activeQuests := marked.filter (fun q => q.id != questId) }

/-- addQuest(quest): append only if no active quest already has its id. -/
def addQuest (quest : Quest) (s : GameState) : GameState :=
  match s.activeQuests.find? (fun q => q.id == quest.id) with
  | some _ => s
  | none => { s with activeQuests := s.activeQuests ++ [quest] }

/-- restoreCrystal(crystalType): if not already restored, push it; then if
this made the length 1 while currentAct is 1, advance to act 2 and
exploration; else if the length reached 5, advance to act 3 and finale. -/
def restoreCrystal (crystalType : String) (s : GameState) : GameState :=
  if s.crystalsRestored.contains crystalType then s
  else
    let restored := s.crystalsRestored ++ [crystalType]
    if restored.length = 1 ∧ s.currentAct = 1 then
      { s with crystalsRestored := restored
               currentAct := 2
               storyPhase := StoryPhase.exploration }
    else if restored.length = 5 then
      { s with crystalsRestored := restored
               currentAct := 3
               storyPhase := StoryPhase.finale }
    else
      { s with crystalsRestored := restored }

/-- The only setState call in the application merges a new
currentLocation into the state. -/
def setLocation (loc : String) (s : GameState) : GameState :=
  { s with currentLocation := loc }

/-- Character-list test for: the first list is a leading segment of the
second. -/
def jsHasPre : List Char → List Char → Bool
  | [], _ => true
  | _ :: _, [] => false
  | a :: as, b :: bs => a == b && jsHasPre as bs

/-- Character-list test for: the needle occurs contiguously somewhere in
the haystack. -/
def jsOccurs (needle : List Char) : List Char → Bool
  | [] => needle.isEmpty
  | c :: rest => jsHasPre needle (c :: rest) || jsOccurs needle rest

/-- JavaScript String.prototype.includes: substring occurrence. -/
def jsIncludes (s sub : String) : Bool :=
  jsOccurs sub.data s.data

/-- JavaScript String.prototype.toLowerCase on ASCII text: lower-case
every character. -/
def jsToLower (s : String) : String :=
  String.mk (s.data.map Char.toLower)

/-- JavaScript String.prototype.trim: drop leading and trailing
whitespace. -/
def jsTrim (s : String) : String :=
  String.mk (((s.data.dropWhile Char.isWhitespace).reverse.dropWhile Char.isWhitespace).reverse)

/-- Accumulator pass of split(single space): cut a new word at every
space character, keeping empty words between consecutive spaces. -/
def jsSplitOnSpaceAux (acc : List Char) : List Char → List String
  | [] => [String.mk acc.reverse]
  | c :: rest =>
    if c = ' ' then String.mk acc.reverse :: jsSplitOnSpaceAux [] rest
    else jsSplitOnSpaceAux (c :: acc) rest

/-- JavaScript split(single space character). -/
def jsSplitOnSpace (s : String) : List String :=
  jsSplitOnSpaceAux [] s.data

/-- JavaScript Array.prototype.join(single space). -/
def jsJoinSpace : List String → String
  | [] => ""
  | [w] => w
  | w :: rest => w ++ " " ++ jsJoinSpace rest

/-- extractTarget(command): split on single spaces, drop the first word,
rejoin with spaces; the JS fallback || gives unknown for the empty
result. -/
def extractTarget (command : String) : String :=
  let joined := jsJoinSpace ((jsSplitOnSpace command).drop 1)
  if joined = "" then "unknown" else joined

/-- Return record of parseCommand: an action tag plus optional target and
itemName. -/
structure ParsedCommand where
  action : String
  target : Option String := none
  itemName : Option String := none
deriving DecidableEq

/-- parseCommand(command): lower-case and trim, then classify by substring
containment in a fixed priority order, falling back to explore. -/
def parseCommand (command : String) : ParsedCommand :=
  let lower := jsTrim (jsToLower command)
  if jsIncludes lower "attack" then
    { action := "attack", target := some (extractTarget lower) }
  else if jsIncludes lower "defend" || jsIncludes lower "block" then
    { action := "defend" }
  else if jsIncludes lower "open" || jsIncludes lower "unlock" then
    { action := "unlock", target := some (extractTarget lower) }
  else if jsIncludes lower "pickup" || jsIncludes lower "take" || jsIncludes lower "grab" then
    { action := "pickup", itemName := some (extractTarget lower) }
  else if jsIncludes lower "use" then
    { action := "use", itemName := some (extractTarget lower) }
  else if jsIncludes lower "inventory" then
    { action := "inventory" }
  else
    { action := "explore" }

/-- Folding restoreCrystal over a list of crystal names, first to last. -/
def restoreAll (l : List String) (s : GameState) : GameState :=
  l.foldl (fun t c => restoreCrystal c t) s

/-- The fixed universe of the five crystal names. -/
def fiveCrystals : List String := ["Nature", "Water", "Fire", "Air", "Earth"]

namespace RefModel

/-!
Reference-semantics model of the engine for the getState claim.  In the
source, the engine owns a mutable record this.state whose array-valued
fields (inventory, activeQuests, completedQuests, crystalsRestored) are
JavaScript array references, and getState returns the object spread
record copy, which copies the scalar fields and copies the array fields
as references to the same arrays.  The model makes the reference
structure explicit: arrays live in a heap addressed by natural numbers,
and the state record stores addresses for its four array fields.
-/

/-- Heap of JavaScript arrays, one region per element type. -/
structure Heap where
  items : Nat → List Item
  quests : Nat → List Quest
  strs : Nat → List String

/-- The layout of the this.state record: scalar fields by value, array
fields as heap addresses. -/
structure StateRec where
  health : Int
  maxHealth : Int
  inventory : Nat
  gold : Int
  currentLocation : String
  experience : Int
  level : Int
  currentAct : Int
  currentRegion : String
  activeQuests : Nat
  completedQuests : Nat
  crystalsRestored : Nat
  storyPhase : StoryPhase

/-- An engine instance: its heap of arrays and its state record. -/
structure Engine where
  heap : Heap
  state : StateRec

/-- getState(): the object spread copy of this.state.  Every field is
copied by value; the four array fields are addresses, so the copy
shares the underlying arrays with the engine. -/
def getState (e : Engine) : StateRec := e.state

/-- A caller-side push onto the Item array at address r, as in
copy.inventory.push(item). -/
def pushItem (h : Heap) (r : Nat) (item : Item) : Heap :=
  { h with items := fun n => if n = r then h.items r ++ [item] else h.items n }

/-- The game state the engine observes: its state record with every
array address dereferenced. -/
def observe (e : Engine) : GameState where
  health := e.state.health
  maxHealth := e.state.maxHealth
  inventory := e.heap.items e.state.inventory
  gold := e.state.gold
  currentLocation := e.state.currentLocation
  experience := e.state.experience
  level := e.state.level
  currentAct := e.state.currentAct
  currentRegion := e.state.currentRegion
  activeQuests := e.heap.quests e.state.activeQuests
  completedQuests := e.heap.strs e.state.completedQuests
  crystalsRestored := e.heap.strs e.state.crystalsRestored
  storyPhase := e.state.storyPhase

/-- A freshly constructed engine holding INITIAL_STATE, with its four
arrays at addresses 0 to 3. -/
def engine0 : Engine where
  heap :=
    { items := fun n => if n = 0 then INITIAL_STATE.inventory else []
      quests := fun n => if n = 1 then INITIAL_STATE.activeQuests else []
      strs := fun _ => [] }
  state :=
    { health := 100
      maxHealth := 100
      inventory := 0
      gold := 50
      currentLocation := "Eldergrove Village"
      experience := 0
      level := 1
      currentAct := 1
      currentRegion := "Eldergrove"
      activeQuests := 1
      completedQuests := 2
      crystalsRestored := 3
      storyPhase := StoryPhase.awakening }

end RefModel

/-- An extra potion used as the pushed element in the getState
counterexample. -/
def testPotion : Item where
  id := "extra-potion"
  name := "Extra Potion"
  type := ItemType.potion
  value := 5
  description := "A spare potion"
  effect := some { health := some 10 }

/-- A quest reusing the id of the starter quest, for the quest-id
counterexample. -/
def awakeningAgain : Quest where
  id := "awakening"
  title := "The Awakening"
  description := "The same quest id handed back by the narrative service"
  region := "Eldergrove"
  completed := false

/-- A quest with a fresh id, used in the quest-invariant witness. -/
def crystalHunt : Quest where
  id := "crystal-hunt"
  title := "Crystal Hunt"
  description := "Restore the five crystals"
  region := "Aethermoor"
  completed := false

/-- A potion whose effect record is present with health 0, for the
zero-health-effect claim. -/
def dudPotion : Item where
  id := "dud-potion"
  name := "Dud Potion"
  type := ItemType.potion
  value := 1
  description := "Inert liquid"
  effect := some { health := some 0 }

/-- A potion with a negative health effect, used to break the health
lower bound through useItem. -/
def cursedPotion : Item where
  id := "cursed-potion"
  name := "Cursed Potion"
  type := ItemType.potion
  value := 1
  description := "Smells wrong"
  effect := some { health := some (-500) }

/-- States reachable from INITIAL_STATE by the engine operations, with
addQuest restricted to quest ids not already in completedQuests.  The
setLocation step models the one setState call of the application. -/
inductive ReachQ : GameState → Prop where
  | init : ReachQ INITIAL_STATE
  | takeDamage {s} (a : Int) : ReachQ s → ReachQ (takeDamage a s).1
  | heal {s} (a : Int) : ReachQ s → ReachQ (heal a s).1
  | addItem {s} (i : Item) : ReachQ s → ReachQ (addItem i s)
  | removeItem {s} (i : String) : ReachQ s → ReachQ (removeItem i s).1
  | useItem {s} (i : String) : ReachQ s → ReachQ (useItem i s).1
  | addGold {s} (a : Int) : ReachQ s → ReachQ (addGold a s)
  | spendGold {s} (a : Int) : ReachQ s → ReachQ (spendGold a s).1
  | gainExperience {s} (a : Int) : ReachQ s → ReachQ (gainExperience a s).1
  | completeQuest {s} (q : String) : ReachQ s → ReachQ (completeQuest q s)
  | addQuest {s} (q : Quest) : ReachQ s → q.id ∉ s.completedQuests →
      ReachQ (addQuest q s)
  | restoreCrystal {s} (c : String) : ReachQ s → ReachQ (restoreCrystal c s)
  | setLocation {s} (loc : String) : ReachQ s → ReachQ (setLocation loc s)

/-- States reachable from INITIAL_STATE by the engine operations, with
takeDamage and heal restricted to non-negative amounts and addItem
restricted to items whose optional health effect is non-negative. -/
inductive ReachH : GameState → Prop where
  | init : ReachH INITIAL_STATE
  | takeDamage {s} (a : Int) : ReachH s → 0 ≤ a → ReachH (takeDamage a s).1
  | heal {s} (a : Int) : ReachH s → 0 ≤ a → ReachH (heal a s).1
  | addItem {s} (i : Item) : ReachH s →
      (∀ v, i.healthEffect = some v → 0 ≤ v) → ReachH (addItem i s)
  | removeItem {s} (i : String) : ReachH s → ReachH (removeItem i s).1
  | useItem {s} (i : String) : ReachH s → ReachH (useItem i s).1
  | addGold {s} (a : Int) : ReachH s → ReachH (addGold a s)
  | spendGold {s} (a : Int) : ReachH s → ReachH (spendGold a s).1
  | gainExperience {s} (a : Int) : ReachH s → ReachH (gainExperience a s).1
  | completeQuest {s} (q : String) : ReachH s → ReachH (completeQuest q s)
  | addQuest {s} (q : Quest) : ReachH s → ReachH (addQuest q s)
  | restoreCrystal {s} (c : String) : ReachH s → ReachH (restoreCrystal c s)
  | setLocation {s} (loc : String) : ReachH s → ReachH (setLocation loc s)

/-- States reachable from INITIAL_STATE by addGold and spendGold alone,
with addGold restricted to non-negative amounts. -/
inductive ReachG : GameState → Prop where
  | init : ReachG INITIAL_STATE
  | addGold {s} (a : Int) : ReachG s → 0 ≤ a → ReachG (addGold a s)
  | spendGold {s} (a : Int) : ReachG s → ReachG (spendGold a s).1

/-- Health is within bounds and every inventory item has a non-negative
optional health effect: the inductive invariant for the health claim. -/
def HealthInv (s : GameState) : Prop :=
  0 ≤ s.health ∧ s.health ≤ s.maxHealth ∧
  ∀ i ∈ s.inventory, ∀ v, i.healthEffect = some v → 0 ≤ v

/-- No quest id is in both activeQuests and completedQuests. -/
def QuestInv (s : GameState) : Prop :=
  ∀ qid, qid ∈ s.activeQuests.map Quest.id → qid ∉ s.completedQuests

/-- Stage of the crystal progression after k distinct crystals have been
restored starting from INITIAL_STATE. -/
def CrystalStage (k : Nat) (s : GameState) : Prop :=
  s.crystalsRestored.length = k ∧
  (k = 0 → s.currentAct = 1) ∧
  (1 ≤ k → k ≤ 4 → s.currentAct = 2 ∧ s.storyPhase = StoryPhase.exploration) ∧
  (k = 5 → s.currentAct = 3 ∧ s.storyPhase = StoryPhase.finale)

/-- None of the classifier keywords occurs in the lowered, trimmed
command. -/
def NoKeyword (lower : String) : Prop :=
  jsIncludes lower "attack" = false ∧ jsIncludes lower "defend" = false ∧
  jsIncludes lower "block" = false ∧ jsIncludes lower "open" = false ∧
  jsIncludes lower "unlock" = false ∧ jsIncludes lower "pickup" = false ∧
  jsIncludes lower "take" = false ∧ jsIncludes lower "grab" = false ∧
  jsIncludes lower "use" = false ∧ jsIncludes lower "inventory" = false

/-! Shape lemmas: each operation only rewrites the fields it mentions. -/

theorem spendGold_shape (a : Int) (s : GameState) :
    ∃ g, (spendGold a s).1 = { s with gold := g } := by
  unfold spendGold
  split
  · exact ⟨_, rfl⟩
  · exact ⟨s.gold, rfl⟩

theorem gainExperience_shape (a : Int) (s : GameState) :
    ∃ e lv m hp, (gainExperience a s).1 =
      { s with experience := e, level := lv, maxHealth := m, health := hp } := by
  by_cases h : s.experience + a ≥ s.level * 100
  · exact ⟨s.experience + a - s.level * 100, s.level + 1, s.maxHealth + 20,
      s.maxHealth + 20, by simp [gainExperience, h]⟩
  · exact ⟨s.experience + a, s.level, s.maxHealth, s.health,
      by simp [gainExperience, h]⟩

theorem removeItem_shape (i : String) (s : GameState) :
    ∃ inv, (removeItem i s).1 = { s with inventory := inv } := by
  unfold removeItem
  split
  · exact ⟨s.inventory, rfl⟩
  · exact ⟨_, rfl⟩

theorem useItem_shape (i : String) (s : GameState) :
    ∃ hp inv, (useItem i s).1 = { s with health := hp, inventory := inv } := by
  cases hfind : s.inventory.find? (fun x => x.id == i) with
  | none => exact ⟨s.health, s.inventory, by simp [useItem, hfind]⟩
  | some item =>
    by_cases hcond : item.type = ItemType.potion ∧ optTruthy item.healthEffect = true
    · exact ⟨min s.maxHealth (s.health + item.healthEffect.getD 0),
        List.eraseP (fun x => x.id == i) s.inventory,
        by simp [useItem, heal, removeItem, hfind, hcond]⟩
    · exact ⟨s.health, s.inventory, by simp [useItem, hfind, hcond]⟩

theorem completeQuest_shape (q : String) (s : GameState) :
    ∃ aq cq, completeQuest q s = { s with activeQuests := aq, completedQuests := cq } := by
  unfold completeQuest
  split
  · exact ⟨s.activeQuests, s.completedQuests, rfl⟩
  · exact ⟨_, _, rfl⟩

theorem addQuest_shape (q : Quest) (s : GameState) :
    ∃ aq, addQuest q s = { s with activeQuests := aq } := by
  unfold addQuest
  split
  · exact ⟨s.activeQuests, rfl⟩
  · exact ⟨_, rfl⟩

theorem restoreCrystal_shape (c : String) (s : GameState) :
    ∃ cr act ph, restoreCrystal c s =
      { s with crystalsRestored := cr, currentAct := act, storyPhase := ph } := by
  unfold restoreCrystal
  split
  · exact ⟨s.crystalsRestored, s.currentAct, s.storyPhase, rfl⟩
  · simp only [List.length_append, List.length_cons, List.length_nil]
    split
    · exact ⟨_, _, _, rfl⟩
    · split
      · exact ⟨_, _, _, rfl⟩
      · exact ⟨_, s.currentAct, s.storyPhase, rfl⟩

/-! Lemmas about restoreCrystal and the crystal progression. -/

theorem restoreCrystal_of_mem {c : String} {s : GameState}
    (h : c ∈ s.crystalsRestored) : restoreCrystal c s = s := by
  simp [restoreCrystal, h]

theorem restoreCrystal_crystals_not_mem {c : String} {s : GameState}
    (h : c ∉ s.crystalsRestored) :
    (restoreCrystal c s).crystalsRestored = s.crystalsRestored ++ [c] := by
  have hc : s.crystalsRestored.contains c = false := by simp [h]
  unfold restoreCrystal
  rw [hc]
  simp only [Bool.false_eq_true, if_false]
  split
  · rfl
  · split
    · rfl
    · rfl

theorem restoreCrystal_stage {k : Nat} {s : GameState} {c : String}
    (hst : CrystalStage k s) (hk : k ≤ 4) (hc : c ∉ s.crystalsRestored) :
    CrystalStage (k + 1) (restoreCrystal c s) := by
  obtain ⟨hlen, h0, h14, h5⟩ := hst
  have hcon : s.crystalsRestored.contains c = false := by simp [hc]
  unfold restoreCrystal
  rw [hcon]
  simp only [Bool.false_eq_true, if_false]
  interval_cases k
  · rw [if_pos ⟨by simp [hlen], h0 rfl⟩]
    exact ⟨by simp [hlen], by omega, fun _ _ => ⟨rfl, rfl⟩, by omega⟩
  · rw [if_neg (by simp [hlen]), if_neg (by simp [hlen])]
    exact ⟨by simp [hlen], by omega,
      fun _ _ => h14 (by omega) (by omega), by omega⟩
  · rw [if_neg (by simp [hlen]), if_neg (by simp [hlen])]
    exact ⟨by simp [hlen], by omega,
      fun _ _ => h14 (by omega) (by omega), by omega⟩
  · rw [if_neg (by simp [hlen]), if_neg (by simp [hlen])]
    exact ⟨by simp [hlen], by omega,
      fun _ _ => h14 (by omega) (by omega), by omega⟩
  · rw [if_neg (by simp [hlen]), if_pos (by simp [hlen])]
    exact ⟨by simp [hlen], by omega, fun _ h => absurd h (by omega),
      fun _ => ⟨rfl, rfl⟩⟩

theorem restoreAll_stage : ∀ (l : List String) (s : GameState) (k : Nat),
    CrystalStage k s → l.Nodup →
    (∀ c ∈ l, c ∉ s.crystalsRestored) → k + l.length ≤ 5 →
    CrystalStage (k + l.length) (restoreAll l s)
  | [], _, _, hst, _, _, _ => by simpa [restoreAll] using hst
  | c :: t, s, k, hst, hnd, hdis, hle => by
    have hc : c ∉ s.crystalsRestored := hdis c (List.mem_cons_self c t)
    have hk : k ≤ 4 := by
      simp only [List.length_cons] at hle
      omega
    have hst' : CrystalStage (k + 1) (restoreCrystal c s) :=
      restoreCrystal_stage hst hk hc
    have hcr : (restoreCrystal c s).crystalsRestored = s.crystalsRestored ++ [c] :=
      restoreCrystal_crystals_not_mem hc
    have hdis' : ∀ d ∈ t, d ∉ (restoreCrystal c s).crystalsRestored := by
      intro d hd hmem
      rw [hcr] at hmem
      rcases List.mem_append.1 hmem with hm | hm
      · exact hdis d (List.mem_cons_of_mem c hd) hm
      · have hdc : d = c := by simpa using hm
        subst hdc
        exact (List.nodup_cons.1 hnd).1 hd
    have hrec := restoreAll_stage t (restoreCrystal c s) (k + 1) hst'
      (List.nodup_cons.1 hnd).2 hdis'
      (by simp only [List.length_cons] at hle; omega)
    have hfold : restoreAll (c :: t) s = restoreAll t (restoreCrystal c s) := rfl
    rw [hfold]
    have heq : k + (c :: t).length = (k + 1) + t.length := by
      simp only [List.length_cons]
      omega
    rw [heq]
    exact hrec

/-! Quest-id invariant preservation. -/

theorem completeQuest_questInv (q : String) (s : GameState) (inv : QuestInv s) :
    QuestInv (completeQuest q s) := by
  cases hfind : s.activeQuests.find? (fun x => x.id == q) with
  | none => simpa [completeQuest, hfind] using inv
  | some qq =>
    intro qid hmem hcompl
    simp only [completeQuest, hfind] at hmem hcompl
    rcases List.mem_map.1 hmem with ⟨x, hxmem, rfl⟩
    rcases List.mem_filter.1 hxmem with ⟨hxmarked, hxne⟩
    have hne : x.id ≠ q := by simpa using hxne
    rcases List.mem_map.1 hxmarked with ⟨y, hymem, rfl⟩
    have hid : (if y.id = q then { y with completed := true } else y).id = y.id := by
      split
      · rfl
      · rfl
    rw [hid] at hne hcompl
    have hyactive : y.id ∈ s.activeQuests.map Quest.id :=
      List.mem_map.2 ⟨y, hymem, rfl⟩
    rcases List.mem_append.1 hcompl with hcold | hcnew
    · exact inv y.id hyactive hcold
    · exact hne (by simpa using hcnew)

theorem addQuest_questInv (q : Quest) (s : GameState)
    (hq : q.id ∉ s.completedQuests) (inv : QuestInv s) :
    QuestInv (addQuest q s) := by
  cases hfind : s.activeQuests.find? (fun x => x.id == q.id) with
  | some qq => simpa [addQuest, hfind] using inv
  | none =>
    intro qid hmem hcompl
    simp only [addQuest, hfind] at hmem hcompl
    rw [List.map_append] at hmem
    rcases List.mem_append.1 hmem with hmold | hmnew
    · exact inv qid hmold hcompl
    · have hqid : qid = q.id := by simpa using hmnew
      subst hqid
      exact hq hcompl

theorem questInv_reachQ {s : GameState} (hs : ReachQ s) : QuestInv s := by
  induction hs with
  | init =>
    intro qid _ hcompl
    simp [INITIAL_STATE] at hcompl
  | takeDamage a _ ih => exact ih
  | heal a _ ih => exact ih
  | addItem i _ ih => exact ih
  | removeItem i _ ih =>
    obtain ⟨inv', heq⟩ := removeItem_shape i _
    rw [heq]
    exact ih
  | useItem i _ ih =>
    obtain ⟨hp, inv', heq⟩ := useItem_shape i _
    rw [heq]
    exact ih
  | addGold a _ ih => exact ih
  | spendGold a _ ih =>
    obtain ⟨g, heq⟩ := spendGold_shape a _
    rw [heq]
    exact ih
  | gainExperience a _ ih =>
    obtain ⟨e, lv, m, hp, heq⟩ := gainExperience_shape a _
    rw [heq]
    exact ih
  | completeQuest q _ ih => exact completeQuest_questInv q _ ih
  | addQuest q _ hq ih => exact addQuest_questInv q _ hq ih
  | restoreCrystal c _ ih =>
    obtain ⟨cr, act, ph, heq⟩ := restoreCrystal_shape c _
    rw [heq]
    exact ih
  | setLocation loc _ ih => exact ih

/-! Health invariant preservation. -/

theorem takeDamage_healthInv {a : Int} {s : GameState} (ha : 0 ≤ a)
    (inv : HealthInv s) : HealthInv (takeDamage a s).1 := by
  obtain ⟨h1, h2, h3⟩ := inv
  refine ⟨?_, ?_, h3⟩
  · show (0:Int) ≤ max 0 (s.health - a)
    omega
  · show max 0 (s.health - a) ≤ s.maxHealth
    omega

theorem heal_healthInv {a : Int} {s : GameState} (ha : 0 ≤ a)
    (inv : HealthInv s) : HealthInv (heal a s).1 := by
  obtain ⟨h1, h2, h3⟩ := inv
  refine ⟨?_, ?_, h3⟩
  · show (0:Int) ≤ min s.maxHealth (s.health + a)
    omega
  · show min s.maxHealth (s.health + a) ≤ s.maxHealth
    omega

theorem removeItem_healthInv {i : String} {s : GameState}
    (inv : HealthInv s) : HealthInv (removeItem i s).1 := by
  obtain ⟨h1, h2, h3⟩ := inv
  unfold removeItem
  split
  · exact ⟨h1, h2, h3⟩
  · refine ⟨h1, h2, ?_⟩
    intro x hx v hv
    exact h3 x ((List.eraseP_sublist s.inventory).subset hx) v hv

theorem addItem_healthInv {i : Item} {s : GameState}
    (hi : ∀ v, i.healthEffect = some v → 0 ≤ v)
    (inv : HealthInv s) : HealthInv (addItem i s) := by
  obtain ⟨h1, h2, h3⟩ := inv
  refine ⟨h1, h2, ?_⟩
  intro x hx v hv
  rcases List.mem_append.1 hx with hxold | hxnew
  · exact h3 x hxold v hv
  · have hxi : x = i := by simpa using hxnew
    subst hxi
    exact hi v hv

theorem useItem_healthInv {i : String} {s : GameState}
    (inv : HealthInv s) : HealthInv (useItem i s).1 := by
  cases hfind : s.inventory.find? (fun x => x.id == i) with
  | none => simpa [useItem, hfind] using inv
  | some item =>
    by_cases hcond : item.type = ItemType.potion ∧ optTruthy item.healthEffect = true
    · have hmem : item ∈ s.inventory := List.mem_of_find?_eq_some hfind
      obtain ⟨hv, hveq⟩ : ∃ v, item.healthEffect = some v := by
        rcases hh : item.healthEffect with _ | v
        · rw [hh] at hcond
          simp [optTruthy] at hcond
        · exact ⟨v, rfl⟩
      have hvpos : 0 ≤ hv := inv.2.2 item hmem hv hveq
      have hstep : (useItem i s).1 = (removeItem i (heal (item.healthEffect.getD 0) s).1).1 := by
        simp only [useItem, hfind]
        rw [if_pos hcond]
      rw [hstep]
      refine removeItem_healthInv ?_
      rw [hveq]
      exact heal_healthInv (by simpa using hvpos) inv
    · simp only [useItem, hfind]
      rw [if_neg hcond]
      exact inv

theorem gainExperience_healthInv {a : Int} {s : GameState}
    (inv : HealthInv s) : HealthInv (gainExperience a s).1 := by
  obtain ⟨h1, h2, h3⟩ := inv
  by_cases h : s.experience + a ≥ s.level * 100
  · have heq : (gainExperience a s).1 =
        { s with experience := s.experience + a - s.level * 100
                 level := s.level + 1
                 maxHealth := s.maxHealth + 20
                 health := s.maxHealth + 20 } := by
      simp [gainExperience, h]
    rw [heq]
    refine ⟨?_, ?_, h3⟩
    · show (0:Int) ≤ s.maxHealth + 20
      omega
    · show (s.maxHealth + 20 : Int) ≤ s.maxHealth + 20
      omega
  · have heq : (gainExperience a s).1 = { s with experience := s.experience + a } := by
      simp [gainExperience, h]
    rw [heq]
    exact ⟨h1, h2, h3⟩

theorem healthInv_reachH {s : GameState} (hs : ReachH s) : HealthInv s := by
  induction hs with
  | init =>
    refine ⟨by decide, by decide, ?_⟩
    intro i hi v hv
    fin_cases hi <;> simp [Item.healthEffect] at hv <;> omega
  | takeDamage a _ ha ih => exact takeDamage_healthInv ha ih
  | heal a _ ha ih => exact heal_healthInv ha ih
  | addItem i _ hi ih => exact addItem_healthInv hi ih
  | removeItem i _ ih => exact removeItem_healthInv ih
  | useItem i _ ih => exact useItem_healthInv ih
  | addGold a _ ih => exact ih
  | spendGold a _ ih =>
    obtain ⟨g, heq⟩ := spendGold_shape a _
    rw [heq]
    exact ih
  | gainExperience a _ ih => exact gainExperience_healthInv ih
  | completeQuest q _ ih =>
    obtain ⟨aq, cq, heq⟩ := completeQuest_shape q _
    rw [heq]
    exact ih
  | addQuest q _ ih =>
    obtain ⟨aq, heq⟩ := addQuest_shape q _
    rw [heq]
    exact ih
  | restoreCrystal c _ ih =>
    obtain ⟨cr, act, ph, heq⟩ := restoreCrystal_shape c _
    rw [heq]
    exact ih
  | setLocation loc _ ih => exact ih

/-! Gold invariant preservation. -/

theorem gold_nonneg_reachG {s : GameState} (hs : ReachG s) : 0 ≤ s.gold := by
  induction hs with
  | init => decide
  | addGold a _ ha ih =>
    simp only [addGold]
    omega
  | spendGold a _ ih =>
    unfold spendGold
    split
    · simp only
      omega
    · exact ih

/-- Equation for useItem in the successful potion branch. -/
theorem useItem_potion_eq {s : GameState} {i : String} {item : Item} {hv : Int}
    (hfind : s.inventory.find? (fun x => x.id == i) = some item)
    (htype : item.type = ItemType.potion)
    (heff : item.healthEffect = some hv) (hnz : hv ≠ 0) :
    useItem i s =
      ({ s with health := min s.maxHealth (s.health + hv)
                inventory := s.inventory.eraseP (fun x => x.id == i) },
       { success := true
         message := "Used " ++ item.name ++ ". Restored " ++
           toString (min s.maxHealth (s.health + hv) - s.health) ++ " HP!"
         effect := some (min s.maxHealth (s.health + hv) - s.health) }) := by
  have hcond : item.type = ItemType.potion ∧ optTruthy item.healthEffect = true := by
    refine ⟨htype, ?_⟩
    rw [heff]
    simp [optTruthy, hnz]
  simp only [useItem, hfind]
  rw [if_pos hcond]
  simp [heal, removeItem, hfind, heff]

/-! Claim theorems. -/

/-- C1 counterexample: gainExperience(300) at level 1 with experience 0
performs only one level-up, leaving experience 200 at level 2, so the
claimed postcondition experience < level * 100 fails. -/
theorem c1_counterexample :
    ((0:Int) ≤ 300) ∧
    (gainExperience 300 INITIAL_STATE).1.level = 2 ∧
    (gainExperience 300 INITIAL_STATE).1.experience = 200 ∧
    ¬((gainExperience 300 INITIAL_STATE).1.experience <
      (gainExperience 300 INITIAL_STATE).1.level * 100) := by
  decide

/-- C1 (amended): gainExperience adds amount to experience and performs
at most one level-up per call: if the new experience reaches level * 100
then level rises by exactly one, the threshold is subtracted, maxHealth
grows by 20 and health is reset to the new maxHealth, reporting the
level-up with the new level; otherwise only experience changes; in
particular gainExperience(100) at level 1 with experience 0 yields
level 2, experience 0, maxHealth 120, health 120. -/
theorem c1_gainExperience_single_threshold (s : GameState) (amount : Int) :
    ((gainExperience amount s).1.level = s.level ∨
     (gainExperience amount s).1.level = s.level + 1) ∧
    (s.level * 100 ≤ s.experience + amount →
      gainExperience amount s =
        ({ s with experience := s.experience + amount - s.level * 100
                  level := s.level + 1
                  maxHealth := s.maxHealth + 20
                  health := s.maxHealth + 20 },
         { leveledUp := true, newLevel := some (s.level + 1) })) ∧
    (s.experience + amount < s.level * 100 →
      gainExperience amount s =
        ({ s with experience := s.experience + amount },
         { leveledUp := false, newLevel := none })) ∧
    gainExperience 100 INITIAL_STATE =
      ({ INITIAL_STATE with experience := 0, level := 2, maxHealth := 120, health := 120 },
       { leveledUp := true, newLevel := some 2 }) := by
  by_cases h : s.experience + amount ≥ s.level * 100
  · have heq : gainExperience amount s =
        ({ s with experience := s.experience + amount - s.level * 100
                  level := s.level + 1
                  maxHealth := s.maxHealth + 20
                  health := s.maxHealth + 20 },
         { leveledUp := true, newLevel := some (s.level + 1) }) := by
      simp [gainExperience, h]
    rw [heq]
    exact ⟨Or.inr rfl, fun _ => rfl, fun hlt => absurd hlt (by omega), by decide⟩
  · have heq : gainExperience amount s =
        ({ s with experience := s.experience + amount },
         { leveledUp := false, newLevel := none }) := by
      simp [gainExperience, h]
    rw [heq]
    exact ⟨Or.inl rfl, fun hge => absurd hge (by omega), fun _ => rfl, by decide⟩

/-- C1 witness: the single-threshold theorem instantiated at
INITIAL_STATE with amount 100. -/
theorem c1_witness :
    INITIAL_STATE.level * 100 ≤ INITIAL_STATE.experience + 100 ∧
    (gainExperience 100 INITIAL_STATE).1.level = 2 ∧
    (gainExperience 100 INITIAL_STATE).1.experience = 0 ∧
    (gainExperience 100 INITIAL_STATE).1.maxHealth = 120 ∧
    (gainExperience 100 INITIAL_STATE).1.health = 120 ∧
    (gainExperience 100 INITIAL_STATE).2 = { leveledUp := true, newLevel := some 2 } := by
  have h := (c1_gainExperience_single_threshold INITIAL_STATE 100).2.1 (by decide)
  refine ⟨by decide, ?_, ?_, ?_, ?_, ?_⟩ <;> rw [h] <;> decide

/-- C2 counterexample: pushing an item through the inventory reference
of the record returned by getState changes the state the engine
observes, so the returned value is not a defensive copy. -/
theorem c2_counterexample :
    RefModel.observe
      { RefModel.engine0 with
        heap := RefModel.pushItem RefModel.engine0.heap
          (RefModel.getState RefModel.engine0).inventory testPotion } ≠
    RefModel.observe RefModel.engine0 := by
  decide

/-- C2 (amended): getState returns a shallow copy of the state record:
the record itself is copied, but its four array fields are references
shared with the engine, so a caller push onto the returned record's
inventory array is visible in the state the engine observes. -/
theorem c2_getState_shallow_copy (e : RefModel.Engine) (item : Item) :
    RefModel.getState e = e.state ∧
    (RefModel.observe
      { e with heap := RefModel.pushItem e.heap (RefModel.getState e).inventory item }).inventory =
      (RefModel.observe e).inventory ++ [item] := by
  refine ⟨rfl, ?_⟩
  simp [RefModel.observe, RefModel.pushItem, RefModel.getState]

/-- C3 counterexample: completing the starter quest and then adding a
quest with the same id puts the id in both activeQuests and
completedQuests, because addQuest checks only activeQuests. -/
theorem c3_counterexample :
    "awakening" ∈
      ((addQuest awakeningAgain (completeQuest "awakening" INITIAL_STATE)).activeQuests.map Quest.id) ∧
    "awakening" ∈
      (addQuest awakeningAgain (completeQuest "awakening" INITIAL_STATE)).completedQuests := by
  decide

/-- C3 (amended): in every state reachable from INITIAL_STATE by the
engine operations in which addQuest is never called with a quest id
already in completedQuests, each quest id is in at most one of
activeQuests and completedQuests. -/
theorem c3_quest_id_disjoint (s : GameState) (hs : ReachQ s) (qid : String)
    (hactive : qid ∈ s.activeQuests.map Quest.id) :
    qid ∉ s.completedQuests :=
  questInv_reachQ hs qid hactive

/-- C3 witness: the disjointness theorem instantiated after completing
the starter quest and adding a fresh quest. -/
theorem c3_witness :
    "crystal-hunt" ∉ (addQuest crystalHunt (completeQuest "awakening" INITIAL_STATE)).completedQuests :=
  c3_quest_id_disjoint _
    (ReachQ.addQuest crystalHunt (ReachQ.completeQuest "awakening" ReachQ.init) (by decide))
    "crystal-hunt" (by decide)

/-- C4 counterexample: negative amounts break both health bounds, and a
potion with a negative health effect breaks the lower bound through
useItem; the claim quantifies over all integer amounts, so the invariant
fails as stated. -/
theorem c4_counterexample :
    ((heal (-200) INITIAL_STATE).1.health = -100 ∧
      ¬(0 ≤ (heal (-200) INITIAL_STATE).1.health)) ∧
    ((takeDamage (-50) INITIAL_STATE).1.health = 150 ∧
      ¬((takeDamage (-50) INITIAL_STATE).1.health ≤
        (takeDamage (-50) INITIAL_STATE).1.maxHealth)) ∧
    ((useItem "cursed-potion" (addItem cursedPotion INITIAL_STATE)).1.health = -400 ∧
      ¬(0 ≤ (useItem "cursed-potion" (addItem cursedPotion INITIAL_STATE)).1.health)) := by
  decide

/-- C4 (amended): in every state reachable from INITIAL_STATE by the
engine operations with non-negative takeDamage and heal amounts and
added items whose optional health effect is non-negative, health stays
between 0 and maxHealth. -/
theorem c4_health_bounds (s : GameState) (hs : ReachH s) :
    0 ≤ s.health ∧ s.health ≤ s.maxHealth :=
  ⟨(healthInv_reachH hs).1, (healthInv_reachH hs).2.1⟩

/-- C4 witness: the bounds theorem instantiated after taking 30 damage
and healing 50 from INITIAL_STATE. -/
theorem c4_witness :
    0 ≤ (heal 50 (takeDamage 30 INITIAL_STATE).1).1.health ∧
    (heal 50 (takeDamage 30 INITIAL_STATE).1).1.health ≤
      (heal 50 (takeDamage 30 INITIAL_STATE).1).1.maxHealth :=
  c4_health_bounds _ (ReachH.heal 50 (ReachH.takeDamage 30 ReachH.init (by decide)) (by decide))

/-- C5: restoreCrystal on INITIAL_STATE moves to act 2 and exploration
on the first crystal; restoring an already-restored crystal leaves the
state unchanged; and over every order of the five distinct crystals,
act 3 and finale are reached exactly when crystalsRestored reaches
length 5, with act 2 and exploration at every earlier stage. -/
theorem c5_restoreCrystal_progression (l : List String) (hperm : l.Perm fiveCrystals) :
    ((restoreCrystal "Nature" INITIAL_STATE).currentAct = 2 ∧
     (restoreCrystal "Nature" INITIAL_STATE).storyPhase = StoryPhase.exploration ∧
     (restoreCrystal "Nature" INITIAL_STATE).crystalsRestored = ["Nature"]) ∧
    (∀ s c, c ∈ s.crystalsRestored → restoreCrystal c s = s) ∧
    ((restoreAll l INITIAL_STATE).currentAct = 3 ∧
     (restoreAll l INITIAL_STATE).storyPhase = StoryPhase.finale ∧
     (restoreAll l INITIAL_STATE).crystalsRestored.length = 5) ∧
    (∀ k, 1 ≤ k → k ≤ 4 →
      (restoreAll (l.take k) INITIAL_STATE).currentAct = 2 ∧
      (restoreAll (l.take k) INITIAL_STATE).storyPhase = StoryPhase.exploration) := by
  have hnd : l.Nodup := hperm.nodup_iff.mpr (by decide)
  have hlen : l.length = 5 := by
    have hl := hperm.length_eq
    simpa [fiveCrystals] using hl
  have hstage0 : CrystalStage 0 INITIAL_STATE := by
    refine ⟨rfl, fun _ => rfl, ?_, ?_⟩
    · intro h1 _
      omega
    · intro h5
      omega
  refine ⟨⟨by decide, by decide, by decide⟩, ?_, ?_, ?_⟩
  · intro s c hc
    exact restoreCrystal_of_mem hc
  · have hst := restoreAll_stage l INITIAL_STATE 0 hstage0 hnd
      (by intro c _ hmem; simp [INITIAL_STATE] at hmem) (by omega)
    obtain ⟨hl5, _, _, h5⟩ := hst
    have hfin := h5 (by omega)
    exact ⟨hfin.1, hfin.2, by omega⟩
  · intro k hk1 hk4
    have hndk : (l.take k).Nodup := List.Nodup.sublist (List.take_sublist k l) hnd
    have hlenk : (l.take k).length = k := by
      rw [List.length_take, hlen]
      omega
    have hst := restoreAll_stage (l.take k) INITIAL_STATE 0 hstage0 hndk
      (by intro c _ hmem; simp [INITIAL_STATE] at hmem) (by rw [hlenk]; omega)
    rw [hlenk] at hst
    obtain ⟨_, _, h14, _⟩ := hst
    have hmid := h14 (by omega) (by omega)
    exact ⟨hmid.1, hmid.2⟩

/-- C5 witness: the progression theorem instantiated at one concrete
order of the five crystals. -/
theorem c5_witness :
    (["Earth", "Water", "Nature", "Fire", "Air"] : List String).Perm fiveCrystals ∧
    (restoreAll ["Earth", "Water", "Nature", "Fire", "Air"] INITIAL_STATE).currentAct = 3 ∧
    (restoreAll ["Earth", "Water", "Nature", "Fire", "Air"] INITIAL_STATE).storyPhase = StoryPhase.finale ∧
    (restoreAll (["Earth", "Water", "Nature", "Fire", "Air"].take 2) INITIAL_STATE).currentAct = 2 := by
  have hperm : (["Earth", "Water", "Nature", "Fire", "Air"] : List String).Perm fiveCrystals := by
    decide
  have h := c5_restoreCrystal_progression _ hperm
  exact ⟨hperm, h.2.2.1.1, h.2.2.1.2.1, (h.2.2.2 2 (by omega) (by omega)).1⟩

/-- C6: for every state and every amount, heal sets health to
min(maxHealth, health + amount) and returns min(amount,
maxHealth - healthBefore), the actual amount healed. -/
theorem c6_heal_spec (s : GameState) (amount : Int) (h : 0 ≤ amount) :
    (heal amount s).1 = { s with health := min s.maxHealth (s.health + amount) } ∧
    (heal amount s).2 = min amount (s.maxHealth - s.health) := by
  constructor
  · rfl
  · show min s.maxHealth (s.health + amount) - s.health = min amount (s.maxHealth - s.health)
    omega

/-- C6 witness: healing 30 at full health returns 0. -/
theorem c6_witness :
    ((0:Int) ≤ 30) ∧
    (heal 30 INITIAL_STATE).2 = min 30 (INITIAL_STATE.maxHealth - INITIAL_STATE.health) :=
  ⟨by decide, (c6_heal_spec INITIAL_STATE 30 (by decide)).2⟩

/-- C7: useItem on an absent id fails with Item not found and leaves the
state unchanged; on the first inventory item with the given id, if it is
a potion with a truthy health effect, it heals by that amount, removes
the item and reports success with the actual amount healed, which is 0
when health already equals maxHealth, with the potion still removed; in
every other case it fails with Cannot use this item now and leaves the
state unchanged. -/
theorem c7_useItem_spec (s : GameState) (itemId : String) :
    (s.inventory.find? (fun x => x.id == itemId) = none →
      useItem itemId s =
        (s, { success := false, message := "Item not found", effect := none })) ∧
    (∀ item hv, s.inventory.find? (fun x => x.id == itemId) = some item →
      item.type = ItemType.potion → item.healthEffect = some hv → hv ≠ 0 →
      useItem itemId s =
        ({ s with health := min s.maxHealth (s.health + hv)
                  inventory := s.inventory.eraseP (fun x => x.id == itemId) },
         { success := true
           message := "Used " ++ item.name ++ ". Restored " ++
             toString (min s.maxHealth (s.health + hv) - s.health) ++ " HP!"
           effect := some (min s.maxHealth (s.health + hv) - s.health) })) ∧
    (∀ item, s.inventory.find? (fun x => x.id == itemId) = some item →
      ¬(item.type = ItemType.potion ∧ optTruthy item.healthEffect = true) →
      useItem itemId s =
        (s, { success := false, message := "Cannot use this item now", effect := none })) ∧
    (s.health = s.maxHealth →
      ∀ item hv, s.inventory.find? (fun x => x.id == itemId) = some item →
      item.type = ItemType.potion → item.healthEffect = some hv → 0 < hv →
      (useItem itemId s).2.success = true ∧
      (useItem itemId s).2.effect = some 0 ∧
      (useItem itemId s).1.inventory = s.inventory.eraseP (fun x => x.id == itemId)) := by
  refine ⟨?_, ?_, ?_, ?_⟩
  · intro hfind
    simp [useItem, hfind]
  · intro item hv hfind htype heff hnz
    exact useItem_potion_eq hfind htype heff hnz
  · intro item hfind hncond
    simp only [useItem, hfind]
    rw [if_neg hncond]
  · intro hfull item hv hfind htype heff hpos
    rw [useItem_potion_eq hfind htype heff (by omega)]
    have hzero : min s.maxHealth (s.health + hv) - s.health = 0 := by
      omega
    refine ⟨rfl, ?_, rfl⟩
    show some (min s.maxHealth (s.health + hv) - s.health) = some 0
    rw [hzero]

/-- C7 witness: using the starter health potion at full health succeeds
with healed 0 and removes the potion. -/
theorem c7_witness :
    (useItem "health-potion" INITIAL_STATE).2.success = true ∧
    (useItem "health-potion" INITIAL_STATE).2.effect = some 0 ∧
    (useItem "health-potion" INITIAL_STATE).1.inventory =
      INITIAL_STATE.inventory.eraseP (fun x => x.id == "health-potion") :=
  (c7_useItem_spec INITIAL_STATE "health-potion").2.2.2 rfl
    { id := "health-potion"
      name := "Health Potion"
      type := ItemType.potion
      value := 25
      description := "Restores 30 HP"
      effect := some { health := some 30 } }
    30 (by decide) rfl rfl (by decide)

/-- C8 counterexample: addGold accepts a negative amount and drives gold
negative from INITIAL_STATE. -/
theorem c8_counterexample :
    (addGold (-100) INITIAL_STATE).gold = -50 ∧
    ¬(0 ≤ (addGold (-100) INITIAL_STATE).gold) := by
  decide

/-- C8 (amended): gold stays non-negative in every state reachable from
INITIAL_STATE by addGold with non-negative amounts and spendGold with
arbitrary amounts; spendGold succeeds exactly when gold is at least the
amount, then subtracts exactly the amount, and on failure leaves the
state unchanged. -/
theorem c8_gold_nonneg :
    (∀ s, ReachG s → 0 ≤ s.gold) ∧
    (∀ (s : GameState) (a : Int),
      ((spendGold a s).2 = true ↔ a ≤ s.gold) ∧
      ((spendGold a s).2 = true → (spendGold a s).1.gold = s.gold - a) ∧
      ((spendGold a s).2 = false → (spendGold a s).1 = s)) := by
  constructor
  · intro s hs
    exact gold_nonneg_reachG hs
  · intro s a
    unfold spendGold
    by_cases h : s.gold ≥ a
    · rw [if_pos h]
      exact ⟨by simpa using h, fun _ => rfl, by simp⟩
    · rw [if_neg h]
      exact ⟨by simpa using h, by simp, fun _ => rfl⟩

/-- C8 witness: gold is non-negative after adding 10 and spending 20
from INITIAL_STATE. -/
theorem c8_witness :
    0 ≤ (spendGold 20 (addGold 10 INITIAL_STATE)).1.gold :=
  c8_gold_nonneg.1 _ (ReachG.spendGold 20 (ReachG.addGold 10 ReachG.init (by decide)))

/-- C9: parseCommand always returns one of the seven action tags, with
explore as the fallback when no keyword occurs, and classifies
take the rusty sword as pickup with target the rusty sword. -/
theorem c9_parseCommand_total (cmd : String) :
    (parseCommand cmd).action ∈
      ["attack", "defend", "unlock", "pickup", "use", "inventory", "explore"] ∧
    (NoKeyword (jsTrim (jsToLower cmd)) →
      parseCommand cmd = { action := "explore", target := none, itemName := none }) ∧
    parseCommand "take the rusty sword" =
      { action := "pickup", target := none, itemName := some "the rusty sword" } := by
  refine ⟨?_, ?_, ?_⟩
  · simp only [parseCommand]
    repeat' split
    all_goals simp
  · rintro ⟨h1, h2, h3, h4, h5, h6, h7, h8, h9, h10⟩
    simp [parseCommand, h1, h2, h3, h4, h5, h6, h7, h8, h9, h10]
  · decide

/-- C9 witness: the totality theorem instantiated at a keyword-free
command. -/
theorem c9_witness :
    (parseCommand "wander north").action ∈
      ["attack", "defend", "unlock", "pickup", "use", "inventory", "explore"] ∧
    parseCommand "wander north" = { action := "explore", target := none, itemName := none } :=
  ⟨(c9_parseCommand_total "wander north").1,
   (c9_parseCommand_total "wander north").2.1 (by unfold NoKeyword; decide)⟩

/-- C10: useItem on a potion whose effect record is present with health
equal to 0 fails with Cannot use this item now and leaves the state
unchanged, because the truthiness test treats 0 like a missing health
effect. -/
theorem c10_useItem_zero_health_effect (s : GameState) (itemId : String) (item : Item)
    (hfind : s.inventory.find? (fun x => x.id == itemId) = some item)
    (htype : item.type = ItemType.potion)
    (heff : item.healthEffect = some 0) :
    useItem itemId s =
      (s, { success := false, message := "Cannot use this item now", effect := none }) := by
  have hcond : ¬(item.type = ItemType.potion ∧ optTruthy item.healthEffect = true) := by
    rintro ⟨-, htr⟩
    rw [heff] at htr
    simp [optTruthy] at htr
  simp only [useItem, hfind]
  rw [if_neg hcond]

/-- C10 witness: the zero-effect theorem instantiated on a state holding
a zero-health potion. -/
theorem c10_witness :
    useItem "dud-potion" (addItem dudPotion INITIAL_STATE) =
      (addItem dudPotion INITIAL_STATE,
       { success := false, message := "Cannot use this item now", effect := none }) :=
  c10_useItem_zero_health_effect _ _ dudPotion (by decide) rfl rfl
